import Mathlib

/-!
Shallow embedding of the CvRDT library (cvrdt-exposition): six state-based
conflict-free replicated data types (OneWayBoolean, GCounter, GSet,
LWWRegister, PNCounter, TwoPhaseSet) with the Grow/Shrink operations
`new`, `payload`, `add`, `le`, `merge`, `query`, `del`.

Modelling conventions:
- Rust `u64` values are `Nat`s below `2 ^ 64`; arithmetic that can overflow
  or underflow in the source (`+= 1`, `iter().sum()`, `-`) is modelled as
  checked arithmetic returning `Option` (a Rust panic is `none`).
- `assert!`/`assert_eq!` contract checks (`compatible_len`, `consistent`,
  the TwoPhaseSet `del` guard, the LWWRegister timestamp guard) make the
  corresponding operation `Option`-valued: `none` models the panic.
- `HashSet` payloads are modelled as `Finset`; `Instant` timestamps as `Nat`.
- `Vec<u64>` is `List Nat`; indexed iteration `(0..n)` over equal-length
  vectors is modelled with `List.zip` / `List.zipWith`.
-/

/-- One past the largest `u64` value: `2 ^ 64`. -/
def U64LIM : Nat := 18446744073709551616

/-- Checked `u64` addition: `none` models the overflow panic. -/
def checkedAdd (a b : Nat) : Option Nat :=
  if a + b < U64LIM then some (a + b) else none

/-- Checked `u64` sum (`iter().sum::<u64>()`), folding left as Rust does. -/
def checkedSum (l : List Nat) : Option Nat :=
  l.foldl (fun acc c => acc.bind fun a => checkedAdd a c) (some 0)

/-- Pointwise `<=` over two vectors of the same length, as the Rust
`(0..n).all(|i| self.counts[i] <= other.counts[i])`. -/
def allLe (a b : List Nat) : Bool :=
  (a.zip b).all fun p => p.1 ≤ p.2

/-! ## OneWayBoolean (src/one_way_boolean.rs) -/

structure OneWayBoolean where
  flag : Bool
deriving DecidableEq, Repr

namespace OneWayBoolean

def new (payload : Bool) : OneWayBoolean := ⟨payload⟩

def payload (x : OneWayBoolean) : Bool := x.flag

def add (_ : OneWayBoolean) : OneWayBoolean := ⟨true⟩

def le (x y : OneWayBoolean) : Bool := x.flag ≤ y.flag

def merge (x y : OneWayBoolean) : OneWayBoolean := ⟨x.flag || y.flag⟩

def query (x : OneWayBoolean) : Bool := x.flag

end OneWayBoolean

/-! ## GCounter (src/g_counter.rs)

`GCounter::new` performs no validation.  `add` indexes `counts[id]`
(panicking when `id` is out of bounds) and does a checked `+= 1`.
`le` and `merge` first run `compatible_len`, an `assert_eq!` on the two
vector lengths. -/

structure GCounter where
  id : Nat
  counts : List Nat
deriving DecidableEq, Repr

namespace GCounter

def new (p : Nat × List Nat) : GCounter := ⟨p.1, p.2⟩

def payload (x : GCounter) : Nat × List Nat := (x.id, x.counts)

def add (x : GCounter) : Option GCounter :=
  if h : x.id < x.counts.length then
    (checkedAdd (x.counts.get ⟨x.id, h⟩) 1).map fun c =>
      ⟨x.id, x.counts.set x.id c⟩
  else none

def le (x y : GCounter) : Option Bool :=
  if x.counts.length = y.counts.length then some (allLe x.counts y.counts)
  else none

def merge (x y : GCounter) : Option GCounter :=
  if x.counts.length = y.counts.length then
    some ⟨min x.id y.id, List.zipWith max x.counts y.counts⟩
  else none

def query (x : GCounter) : Option Nat := checkedSum x.counts

end GCounter

/-! ## GSet (src/g_set.rs) -/

structure GSet (X : Type) [DecidableEq X] where
  values : Finset X

namespace GSet

variable {X : Type} [DecidableEq X]

def new (payload : Finset X) : GSet X := ⟨payload⟩

def payload (s : GSet X) : Finset X := s.values

def add (s : GSet X) (update : X) : GSet X := ⟨insert update s.values⟩

def le (s t : GSet X) : Bool := s.values ⊆ t.values

def merge (s t : GSet X) : GSet X := ⟨s.values ∪ t.values⟩

def query (s : GSet X) (q : X) : Bool := q ∈ s.values

end GSet

/-! ## LWWRegister (src/lww_register.rs)

Timestamps (`std::time::Instant`) are modelled as `Nat`.  `add` reads the
current time, so the embedding takes `now` as an explicit argument; the
`assert!(self.timestamp <= now)` guard makes it `Option`-valued. -/

structure LWWRegister (X : Type) where
  value : X
  timestamp : Nat
deriving DecidableEq, Repr

namespace LWWRegister

variable {X : Type}

def new (p : X × Nat) : LWWRegister X := ⟨p.1, p.2⟩

def payload (r : LWWRegister X) : X × Nat := (r.value, r.timestamp)

def add (r : LWWRegister X) (update : X) (now : Nat) : Option (LWWRegister X) :=
  if r.timestamp ≤ now then some ⟨update, now⟩ else none

def le (r s : LWWRegister X) : Bool := r.timestamp ≤ s.timestamp

def merge (r s : LWWRegister X) : LWWRegister X :=
  if r.timestamp < s.timestamp then s else r

def query (r : LWWRegister X) : X := r.value

end LWWRegister

/-! ## PNCounter (src/pn_counter.rs)

`consistent` is the `assert_eq!`/`assert!` trio run by `new` and (via
`compatible_len`) by `le` and `merge`. -/

structure PNCounter where
  id : Nat
  positive : List Nat
  negative : List Nat
deriving DecidableEq, Repr

namespace PNCounter

def consistent (x : PNCounter) : Prop :=
  x.positive.length = x.negative.length ∧
    x.id < x.positive.length ∧ x.id < x.negative.length

instance (x : PNCounter) : Decidable x.consistent := by
  unfold consistent; infer_instance

def compatible (x y : PNCounter) : Prop :=
  x.consistent ∧ y.consistent ∧
    x.positive.length = y.positive.length ∧
    x.negative.length = y.negative.length

instance (x y : PNCounter) : Decidable (compatible x y) := by
  unfold compatible; infer_instance

def new (p : Nat × List Nat × List Nat) : Option PNCounter :=
  if (⟨p.1, p.2.1, p.2.2⟩ : PNCounter).consistent then
    some ⟨p.1, p.2.1, p.2.2⟩
  else none

def payload (x : PNCounter) : Nat × List Nat × List Nat :=
  (x.id, x.positive, x.negative)

def add (x : PNCounter) : Option PNCounter :=
  if h : x.id < x.positive.length then
    (checkedAdd (x.positive.get ⟨x.id, h⟩) 1).map fun c =>
      ⟨x.id, x.positive.set x.id c, x.negative⟩
  else none

def le (x y : PNCounter) : Option Bool :=
  if compatible x y then
    some (allLe x.positive y.positive && allLe x.negative y.negative)
  else none

def merge (x y : PNCounter) : Option PNCounter :=
  if compatible x y then
    some ⟨min x.id y.id, List.zipWith max x.positive y.positive,
          List.zipWith max x.negative y.negative⟩
  else none

def query (x : PNCounter) : Option Nat :=
  (checkedSum x.positive).bind fun p =>
    (checkedSum x.negative).bind fun n =>
      if n ≤ p then some (p - n) else none

def del (x : PNCounter) : Option PNCounter :=
  if h : x.id < x.negative.length then
    (checkedAdd (x.negative.get ⟨x.id, h⟩) 1).map fun c =>
      ⟨x.id, x.positive, x.negative.set x.id c⟩
  else none

end PNCounter

/-! ## TwoPhaseSet (src/two_phase_set.rs) -/

structure TwoPhaseSet (X : Type) [DecidableEq X] where
  added : Finset X
  removed : Finset X

instance {X : Type} [DecidableEq X] : DecidableEq (TwoPhaseSet X) :=
  fun s t =>
    decidable_of_iff (s.added = t.added ∧ s.removed = t.removed)
      (by cases s; cases t; simp [TwoPhaseSet.mk.injEq])

namespace TwoPhaseSet

variable {X : Type} [DecidableEq X]

def new (p : Finset X × Finset X) : TwoPhaseSet X := ⟨p.1, p.2⟩

def payload (s : TwoPhaseSet X) : Finset X × Finset X := (s.added, s.removed)

def add (s : TwoPhaseSet X) (update : X) : TwoPhaseSet X :=
  ⟨insert update s.added, s.removed⟩

def le (s t : TwoPhaseSet X) : Bool :=
  s.added ⊆ t.added ∧ s.removed ⊆ t.removed

def merge (s t : TwoPhaseSet X) : TwoPhaseSet X :=
  ⟨s.added ∪ t.added, s.removed ∪ t.removed⟩

def query (s : TwoPhaseSet X) (q : X) : Bool :=
  q ∈ s.added ∧ q ∉ s.removed

def del (s : TwoPhaseSet X) (x : X) : Option (TwoPhaseSet X) :=
  if s.query x then some ⟨s.added, insert x s.removed⟩ else none

/-- A single client-visible mutation on a `TwoPhaseSet`: grow, shrink, or
merge with an arbitrary operand. -/
inductive Op (X : Type) [DecidableEq X] where
  | grow (x : X)
  | shrink (x : X)
  | join (other : TwoPhaseSet X)

/-- Apply one operation; `shrink` panics (yields `none`) on non-members. -/
def apply (s : TwoPhaseSet X) : Op X → Option (TwoPhaseSet X)
  | .grow x => some (s.add x)
  | .shrink x => s.del x
  | .join t => some (s.merge t)

/-- Run a sequence of operations left to right, aborting on panic. -/
def run (s : TwoPhaseSet X) : List (Op X) → Option (TwoPhaseSet X)
  | [] => some s
  | op :: ops => (s.apply op).bind fun s' => run s' ops

end TwoPhaseSet

/-! ## Helper lemmas on checked arithmetic and pointwise vector order -/

theorem checkedSum_cons (a : Nat) (l : List Nat) :
    checkedSum (a :: l) =
      l.foldl (fun acc c => acc.bind fun x => checkedAdd x c) (checkedAdd 0 a) := by
  simp [checkedSum, checkedAdd]

theorem foldl_checkedAdd_none (t : List Nat) :
    t.foldl (fun acc c => acc.bind fun x => checkedAdd x c) none = none := by
  induction t with
  | nil => rfl
  | cons d t iht => simpa using iht

theorem checkedSum_eq_sum (l : List Nat) (v : Nat) (h : checkedSum l = some v) :
    v = l.sum := by
  suffices H : ∀ (l : List Nat) (a v : Nat),
      l.foldl (fun acc c => acc.bind fun x => checkedAdd x c) (some a) = some v →
      v = a + l.sum by
    simpa using H l 0 v h
  intro l
  induction l with
  | nil => intro a v h; simpa using h.symm
  | cons c t ih =>
    intro a v h
    rw [List.foldl_cons] at h
    have hred : ((some a).bind fun x => checkedAdd x c) = checkedAdd a c := rfl
    rw [hred] at h
    by_cases hlt : a + c < U64LIM
    · rw [show checkedAdd a c = some (a + c) from if_pos hlt] at h
      have := ih (a + c) v h
      simp only [List.sum_cons, this]; omega
    · rw [show checkedAdd a c = none from if_neg hlt,
        foldl_checkedAdd_none t] at h
      exact absurd h (by simp)

theorem allLe_refl (a : List Nat) : allLe a a = true := by
  induction a with
  | nil => rfl
  | cons x xs ih => simpa [allLe] using ih

theorem allLe_trans :
    ∀ {a b c : List Nat}, a.length = b.length → b.length = c.length →
      allLe a b = true → allLe b c = true → allLe a c = true
  | [], [], [], _, _, _, _ => rfl
  | x :: xs, y :: ys, z :: zs, hab, hbc, h1, h2 => by
    simp only [allLe, List.zip_cons_cons, List.all_cons, Bool.and_eq_true,
      decide_eq_true_eq] at h1 h2 ⊢
    exact ⟨le_trans h1.1 h2.1,
      allLe_trans (by simpa using hab) (by simpa using hbc) h1.2 h2.2⟩

theorem allLe_antisymm :
    ∀ {a b : List Nat}, a.length = b.length →
      allLe a b = true → allLe b a = true → a = b
  | [], [], _, _, _ => rfl
  | x :: xs, y :: ys, hab, h1, h2 => by
    simp only [allLe, List.zip_cons_cons, List.all_cons, Bool.and_eq_true,
      decide_eq_true_eq] at h1 h2
    have := allLe_antisymm (a := xs) (b := ys) (by simpa using hab) h1.2 h2.2
    simp [this, Nat.le_antisymm h1.1 h2.1]

theorem zipWith_max_comm (a b : List Nat) :
    List.zipWith max a b = List.zipWith max b a :=
  List.zipWith_comm_of_comm max Nat.max_comm a b

theorem zipWith_max_assoc :
    ∀ (a b c : List Nat),
      List.zipWith max (List.zipWith max a b) c =
        List.zipWith max a (List.zipWith max b c)
  | [], _, _ => rfl
  | _ :: _, [], _ => rfl
  | _ :: _, _ :: _, [] => rfl
  | x :: xs, y :: ys, z :: zs => by
    simp only [List.zipWith_cons_cons]
    exact congrArg₂ List.cons (Nat.max_assoc x y z) (zipWith_max_assoc xs ys zs)

theorem allLe_iff_zipWith_max :
    ∀ {a b : List Nat}, a.length = b.length →
      (allLe a b = true ↔ List.zipWith max a b = b)
  | [], [], _ => by simp [allLe]
  | x :: xs, y :: ys, hab => by
    simp only [allLe, List.zip_cons_cons, List.all_cons, Bool.and_eq_true,
      decide_eq_true_eq, List.zipWith_cons_cons, List.cons.injEq]
    constructor
    · rintro ⟨h1, h2⟩
      exact ⟨max_eq_right h1,
        (allLe_iff_zipWith_max (by simpa using hab)).1 h2⟩
    · rintro ⟨h1, h2⟩
      exact ⟨max_eq_right_iff.1 h1,
        (allLe_iff_zipWith_max (a := xs) (by simpa using hab)).2 h2⟩

theorem allLe_zipWith_max_left :
    ∀ (a b : List Nat), allLe a (List.zipWith max a b) = true
  | [], _ => rfl
  | _ :: _, [] => rfl
  | x :: xs, y :: ys => by
    simpa [allLe, List.zipWith_cons_cons] using allLe_zipWith_max_left xs ys

theorem allLe_set (a : List Nat) (i v : Nat) (h : i < a.length)
    (hv : a.get ⟨i, h⟩ ≤ v) : allLe a (a.set i v) = true := by
  induction a generalizing i with
  | nil => rfl
  | cons x xs ih =>
    cases i with
    | zero =>
      show allLe (x :: xs) (v :: xs) = true
      have hxs := allLe_refl xs
      simp only [allLe, List.zip_cons_cons, List.all_cons, Bool.and_eq_true,
        decide_eq_true_eq] at hxs ⊢
      exact ⟨hv, hxs⟩
    | succ j =>
      have hj : j < xs.length := by simpa using h
      have hrec := ih j hj (by simpa using hv)
      show allLe (x :: xs) (x :: xs.set j v) = true
      simp only [allLe, List.zip_cons_cons, List.all_cons, Bool.and_eq_true,
        decide_eq_true_eq] at hrec ⊢
      exact ⟨le_refl x, hrec⟩

/-! ## Lattice lemmas: OneWayBoolean -/

namespace OneWayBoolean

theorem owb_merge_comm (x y : OneWayBoolean) :
    (x.merge y).payload = (y.merge x).payload := by
  simp [merge, payload, Bool.or_comm]

theorem owb_merge_assoc (x y z : OneWayBoolean) :
    (x.merge (y.merge z)).payload = ((x.merge y).merge z).payload := by
  simp [merge, payload, Bool.or_assoc]

theorem owb_le_refl (x : OneWayBoolean) : x.le x = true := by
  simp [le]

theorem owb_le_trans (x y z : OneWayBoolean) (h1 : x.le y = true)
    (h2 : y.le z = true) : x.le z = true := by
  simp only [le, decide_eq_true_eq] at h1 h2 ⊢
  exact le_trans h1 h2

theorem owb_le_antisymm (x y : OneWayBoolean) (h1 : x.le y = true)
    (h2 : y.le x = true) : x.payload = y.payload := by
  simp only [le, decide_eq_true_eq] at h1 h2
  simpa [payload] using le_antisymm h1 h2

theorem owb_le_iff_merge (x y : OneWayBoolean) :
    x.le y = true ↔ (x.merge y).payload = y.payload := by
  cases x with | mk a => cases y with | mk b =>
  cases a <;> cases b <;> simp [le, merge, payload]

theorem owb_add_mono (x : OneWayBoolean) : x.le x.add = true := by
  simp [le, add]

end OneWayBoolean

/-! ## Lattice lemmas: GCounter -/

namespace GCounter

theorem gc_merge_comm (x y : GCounter) (h : x.counts.length = y.counts.length) :
    (x.merge y).map payload = (y.merge x).map payload := by
  unfold merge
  rw [if_pos h, if_pos h.symm]
  simp only [Option.map_some']
  unfold payload
  rw [Nat.min_comm, zipWith_max_comm]

theorem gc_merge_assoc (x y z : GCounter) (hxy : x.counts.length = y.counts.length)
    (hyz : y.counts.length = z.counts.length) :
    ((y.merge z).bind fun w => x.merge w).map payload =
      ((x.merge y).bind fun w => w.merge z).map payload := by
  have hx : x.counts.length =
      (List.zipWith max y.counts z.counts).length := by
    rw [List.length_zipWith]; omega
  have hz : (List.zipWith max x.counts y.counts).length =
      z.counts.length := by
    rw [List.length_zipWith]; omega
  unfold merge
  rw [if_pos hyz, if_pos hxy]
  simp only [Option.some_bind]
  rw [if_pos hx, if_pos hz]
  simp only [Option.map_some']
  unfold payload
  rw [Nat.min_assoc, zipWith_max_assoc]

theorem gc_le_refl (x : GCounter) : x.le x = some true := by
  simp [le, allLe_refl]

theorem gc_le_trans (x y z : GCounter) (hxy : x.counts.length = y.counts.length)
    (hyz : y.counts.length = z.counts.length)
    (h1 : x.le y = some true) (h2 : y.le z = some true) :
    x.le z = some true := by
  simp only [le, if_pos hxy, if_pos hyz, if_pos (hxy.trans hyz),
    Option.some_inj] at h1 h2 ⊢
  exact allLe_trans hxy hyz h1 h2

theorem gc_le_antisymm_counts (x y : GCounter)
    (h : x.counts.length = y.counts.length)
    (h1 : x.le y = some true) (h2 : y.le x = some true) :
    x.counts = y.counts := by
  simp only [le, if_pos h, if_pos h.symm, Option.some_inj] at h1 h2
  exact allLe_antisymm h h1 h2

theorem gc_le_iff_merge_counts (x y : GCounter)
    (h : x.counts.length = y.counts.length) :
    x.le y = some true ↔ (x.merge y).map counts = some y.counts := by
  unfold le merge
  rw [if_pos h, if_pos h]
  simp only [Option.map_some', Option.some_inj]
  exact allLe_iff_zipWith_max h

theorem gc_add_mono (x x' : GCounter) (h : x.add = some x') :
    x.le x' = some true := by
  unfold add at h
  split at h
  · rename_i hid
    cases hc : checkedAdd (x.counts.get ⟨x.id, hid⟩) 1 with
    | none => rw [hc] at h; exact absurd h (by simp)
    | some c =>
      rw [hc] at h
      simp only [Option.map_some', Option.some_inj] at h
      have hcv : x.counts.get ⟨x.id, hid⟩ ≤ c := by
        simp only [checkedAdd] at hc
        split at hc
        · simp only [Option.some_inj] at hc; omega
        · simp at hc
      subst h
      simp only [le, List.length_set, if_pos rfl]
      exact congrArg some (allLe_set x.counts x.id c hid hcv)
  · simp at h

end GCounter

/-! ## Lattice lemmas: GSet -/

namespace GSet

variable {X : Type} [DecidableEq X]

theorem gset_merge_comm (s t : GSet X) : (s.merge t).payload = (t.merge s).payload := by
  simp [merge, payload, Finset.union_comm]

theorem gset_merge_assoc (s t u : GSet X) :
    (s.merge (t.merge u)).payload = ((s.merge t).merge u).payload := by
  simp [merge, payload, Finset.union_assoc]

theorem gset_le_refl (s : GSet X) : s.le s = true := by
  simp [le]

theorem gset_le_trans (s t u : GSet X) (h1 : s.le t = true) (h2 : t.le u = true) :
    s.le u = true := by
  simp only [le, decide_eq_true_eq] at h1 h2 ⊢
  exact h1.trans h2

theorem gset_le_antisymm (s t : GSet X) (h1 : s.le t = true) (h2 : t.le s = true) :
    s.payload = t.payload := by
  simp only [le, decide_eq_true_eq] at h1 h2
  simpa [payload] using Finset.Subset.antisymm h1 h2

theorem gset_le_iff_merge (s t : GSet X) :
    s.le t = true ↔ (s.merge t).payload = t.payload := by
  simp [le, merge, payload, Finset.union_eq_right]

theorem gset_add_mono (s : GSet X) (u : X) : s.le (s.add u) = true := by
  simp only [le, add, decide_eq_true_eq]
  exact Finset.subset_insert u s.values

end GSet

/-! ## Lattice lemmas: LWWRegister

`merge` keeps `self` on timestamp ties, so payload commutativity and
antisymmetry only hold away from ties (or when the payloads agree). -/

namespace LWWRegister

variable {X : Type}

theorem lww_merge_comm (r s : LWWRegister X)
    (h : r.timestamp ≠ s.timestamp ∨ r.value = s.value) :
    (r.merge s).payload = (s.merge r).payload := by
  unfold merge payload
  rcases h with h | h
  · split_ifs with h1 h2 <;> first | rfl | (exfalso; omega)
  · split_ifs with h1 h2 <;>
      first
        | rfl
        | (simp only [Prod.mk.injEq]
           refine ⟨?_, by omega⟩
           first | exact h | exact h.symm)

theorem lww_merge_assoc (r s t : LWWRegister X) :
    r.merge (s.merge t) = (r.merge s).merge t := by
  unfold merge
  split_ifs <;> first | rfl | (exfalso; omega)

theorem lww_le_refl (r : LWWRegister X) : r.le r = true := by
  simp [le]

theorem lww_le_trans (r s t : LWWRegister X) (h1 : r.le s = true)
    (h2 : s.le t = true) : r.le t = true := by
  simp only [le, decide_eq_true_eq] at h1 h2 ⊢
  omega

theorem le_antisymm_timestamp (r s : LWWRegister X) (h1 : r.le s = true)
    (h2 : s.le r = true) : r.timestamp = s.timestamp := by
  simp only [le, decide_eq_true_eq] at h1 h2
  omega

theorem merge_payload_imp_le (r s : LWWRegister X)
    (h : (r.merge s).payload = s.payload) : r.le s = true := by
  unfold merge payload at h
  by_cases h1 : r.timestamp < s.timestamp
  · simp only [le, decide_eq_true_eq]
    omega
  · rw [if_neg h1] at h
    simp only [Prod.mk.injEq] at h
    simp only [le, decide_eq_true_eq]
    omega

theorem le_imp_merge_payload (r s : LWWRegister X)
    (hside : r.timestamp ≠ s.timestamp ∨ r.payload = s.payload)
    (h : r.le s = true) : (r.merge s).payload = s.payload := by
  simp only [le, decide_eq_true_eq] at h
  rcases hside with hne | hpe
  · unfold merge
    rw [if_pos (lt_of_le_of_ne h hne)]
  · unfold merge
    split_ifs
    · rfl
    · exact hpe

theorem lww_add_mono (r : LWWRegister X) (u : X) (now : Nat)
    (h : r.timestamp ≤ now) :
    r.add u now = some ⟨u, now⟩ ∧ r.le ⟨u, now⟩ = true := by
  constructor
  · unfold add
    rw [if_pos h]
  · simp only [le, decide_eq_true_eq]
    exact h

end LWWRegister

/-! ## Lattice lemmas: PNCounter -/

namespace PNCounter

theorem compatible_symm {x y : PNCounter} (h : compatible x y) :
    compatible y x :=
  ⟨h.2.1, h.1, h.2.2.1.symm, h.2.2.2.symm⟩

theorem compatible_trans {x y z : PNCounter} (hxy : compatible x y)
    (hyz : compatible y z) : compatible x z :=
  ⟨hxy.1, hyz.2.1, hxy.2.2.1.trans hyz.2.2.1, hxy.2.2.2.trans hyz.2.2.2⟩

theorem pn_merge_comm (x y : PNCounter) (h : compatible x y) :
    (x.merge y).map payload = (y.merge x).map payload := by
  unfold merge
  rw [if_pos h, if_pos (compatible_symm h)]
  simp only [Option.map_some']
  unfold payload
  rw [Nat.min_comm, zipWith_max_comm x.positive, zipWith_max_comm x.negative]

theorem compatible_merge_right {x y z : PNCounter} (hxy : compatible x y)
    (hyz : compatible y z) :
    compatible x
      ⟨min y.id z.id, List.zipWith max y.positive z.positive,
        List.zipWith max y.negative z.negative⟩ := by
  obtain ⟨⟨hx1, hx2, hx3⟩, ⟨hy1, hy2, hy3⟩, hp1, hn1⟩ := hxy
  obtain ⟨-, ⟨hz1, hz2, hz3⟩, hp2, hn2⟩ := hyz
  refine ⟨⟨hx1, hx2, hx3⟩, ⟨?_, ?_, ?_⟩, ?_, ?_⟩
  · show (List.zipWith max y.positive z.positive).length =
      (List.zipWith max y.negative z.negative).length
    rw [List.length_zipWith, List.length_zipWith]; omega
  · show min y.id z.id < (List.zipWith max y.positive z.positive).length
    rw [List.length_zipWith]; omega
  · show min y.id z.id < (List.zipWith max y.negative z.negative).length
    rw [List.length_zipWith]; omega
  · show x.positive.length = (List.zipWith max y.positive z.positive).length
    rw [List.length_zipWith]; omega
  · show x.negative.length = (List.zipWith max y.negative z.negative).length
    rw [List.length_zipWith]; omega

theorem compatible_merge_left {x y z : PNCounter} (hxy : compatible x y)
    (hyz : compatible y z) :
    compatible
      ⟨min x.id y.id, List.zipWith max x.positive y.positive,
        List.zipWith max x.negative y.negative⟩ z := by
  obtain ⟨⟨hx1, hx2, hx3⟩, ⟨hy1, hy2, hy3⟩, hp1, hn1⟩ := hxy
  obtain ⟨-, ⟨hz1, hz2, hz3⟩, hp2, hn2⟩ := hyz
  refine ⟨⟨?_, ?_, ?_⟩, ⟨hz1, hz2, hz3⟩, ?_, ?_⟩
  · show (List.zipWith max x.positive y.positive).length =
      (List.zipWith max x.negative y.negative).length
    rw [List.length_zipWith, List.length_zipWith]; omega
  · show min x.id y.id < (List.zipWith max x.positive y.positive).length
    rw [List.length_zipWith]; omega
  · show min x.id y.id < (List.zipWith max x.negative y.negative).length
    rw [List.length_zipWith]; omega
  · show (List.zipWith max x.positive y.positive).length = z.positive.length
    rw [List.length_zipWith]; omega
  · show (List.zipWith max x.negative y.negative).length = z.negative.length
    rw [List.length_zipWith]; omega

theorem pn_merge_assoc (x y z : PNCounter) (hxy : compatible x y)
    (hyz : compatible y z) :
    ((y.merge z).bind fun w => x.merge w).map payload =
      ((x.merge y).bind fun w => w.merge z).map payload := by
  unfold merge
  rw [if_pos hyz, if_pos hxy]
  simp only [Option.some_bind]
  rw [if_pos (compatible_merge_right hxy hyz),
    if_pos (compatible_merge_left hxy hyz)]
  simp only [Option.map_some']
  unfold payload
  rw [Nat.min_assoc, zipWith_max_assoc x.positive, zipWith_max_assoc x.negative]

theorem pn_le_refl (x : PNCounter) (h : x.consistent) : x.le x = some true := by
  have hcc : compatible x x := ⟨h, h, rfl, rfl⟩
  unfold le
  rw [if_pos hcc, allLe_refl, allLe_refl]
  decide

theorem pn_le_trans (x y z : PNCounter) (hxy : compatible x y)
    (hyz : compatible y z) (h1 : x.le y = some true)
    (h2 : y.le z = some true) : x.le z = some true := by
  unfold le at h1 h2 ⊢
  rw [if_pos hxy] at h1
  rw [if_pos hyz] at h2
  rw [if_pos (compatible_trans hxy hyz)]
  simp only [Option.some_inj, Bool.and_eq_true] at h1 h2 ⊢
  exact ⟨allLe_trans hxy.2.2.1 hyz.2.2.1 h1.1 h2.1,
    allLe_trans hxy.2.2.2 hyz.2.2.2 h1.2 h2.2⟩

theorem pn_le_antisymm_counts (x y : PNCounter) (h : compatible x y)
    (h1 : x.le y = some true) (h2 : y.le x = some true) :
    x.positive = y.positive ∧ x.negative = y.negative := by
  unfold le at h1 h2
  rw [if_pos h] at h1
  rw [if_pos (compatible_symm h)] at h2
  simp only [Option.some_inj, Bool.and_eq_true] at h1 h2
  exact ⟨allLe_antisymm h.2.2.1 h1.1 h2.1, allLe_antisymm h.2.2.2 h1.2 h2.2⟩

theorem pn_le_iff_merge_counts (x y : PNCounter) (h : compatible x y) :
    x.le y = some true ↔
      (x.merge y).map (fun w => (w.positive, w.negative)) =
        some (y.positive, y.negative) := by
  unfold le merge
  rw [if_pos h, if_pos h]
  simp only [Option.map_some', Option.some_inj, Bool.and_eq_true,
    Prod.mk.injEq]
  exact and_congr (allLe_iff_zipWith_max h.2.2.1)
    (allLe_iff_zipWith_max h.2.2.2)

theorem pn_add_mono (x x' : PNCounter) (hc : x.consistent)
    (h : x.add = some x') : x.le x' = some true := by
  obtain ⟨hc1, hc2, hc3⟩ := hc
  unfold add at h
  rw [dif_pos hc2] at h
  · have hid := hc2
    cases hca : checkedAdd (x.positive.get ⟨x.id, hid⟩) 1 with
    | none => rw [hca] at h; exact absurd h (by simp)
    | some c =>
      rw [hca] at h
      simp only [Option.map_some', Option.some_inj] at h
      have hcv : x.positive.get ⟨x.id, hid⟩ ≤ c := by
        unfold checkedAdd at hca
        split at hca
        · simp only [Option.some_inj] at hca; omega
        · exact absurd hca (by simp)
      subst h
      have hcompat : compatible x ⟨x.id, x.positive.set x.id c, x.negative⟩ := by
        refine ⟨⟨hc1, hc2, hc3⟩, ⟨?_, ?_, ?_⟩, ?_, ?_⟩
        · show (x.positive.set x.id c).length = x.negative.length
          rw [List.length_set]; omega
        · show x.id < (x.positive.set x.id c).length
          rw [List.length_set]; omega
        · exact hc3
        · show x.positive.length = (x.positive.set x.id c).length
          rw [List.length_set]
        · rfl
      unfold le
      rw [if_pos hcompat]
      show some (allLe x.positive (x.positive.set x.id c) &&
        allLe x.negative x.negative) = some true
      rw [allLe_set x.positive x.id c hid hcv, allLe_refl]
      decide

theorem pn_del_mono (x x' : PNCounter) (hc : x.consistent)
    (h : x.del = some x') : x.le x' = some true := by
  obtain ⟨hc1, hc2, hc3⟩ := hc
  unfold del at h
  rw [dif_pos hc3] at h
  · have hid := hc3
    cases hca : checkedAdd (x.negative.get ⟨x.id, hid⟩) 1 with
    | none => rw [hca] at h; exact absurd h (by simp)
    | some c =>
      rw [hca] at h
      simp only [Option.map_some', Option.some_inj] at h
      have hcv : x.negative.get ⟨x.id, hid⟩ ≤ c := by
        unfold checkedAdd at hca
        split at hca
        · simp only [Option.some_inj] at hca; omega
        · exact absurd hca (by simp)
      subst h
      have hcompat : compatible x ⟨x.id, x.positive, x.negative.set x.id c⟩ := by
        refine ⟨⟨hc1, hc2, hc3⟩, ⟨?_, ?_, ?_⟩, ?_, ?_⟩
        · show x.positive.length = (x.negative.set x.id c).length
          rw [List.length_set]; omega
        · exact hc2
        · show x.id < (x.negative.set x.id c).length
          rw [List.length_set]; omega
        · rfl
        · show x.negative.length = (x.negative.set x.id c).length
          rw [List.length_set]
      unfold le
      rw [if_pos hcompat]
      show some (allLe x.positive x.positive &&
        allLe x.negative (x.negative.set x.id c)) = some true
      rw [allLe_set x.negative x.id c hid hcv, allLe_refl]
      decide

end PNCounter

/-! ## Lattice lemmas: TwoPhaseSet -/

namespace TwoPhaseSet

variable {X : Type} [DecidableEq X]

theorem tps_merge_comm (s t : TwoPhaseSet X) :
    (s.merge t).payload = (t.merge s).payload := by
  unfold merge payload
  simp only [Prod.mk.injEq]
  exact ⟨Finset.union_comm _ _, Finset.union_comm _ _⟩

theorem tps_merge_assoc (s t u : TwoPhaseSet X) :
    (s.merge (t.merge u)).payload = ((s.merge t).merge u).payload := by
  unfold merge payload
  simp only [Prod.mk.injEq]
  exact ⟨(Finset.union_assoc _ _ _).symm, (Finset.union_assoc _ _ _).symm⟩

theorem tps_le_refl (s : TwoPhaseSet X) : s.le s = true := by
  simp [le]

theorem tps_le_trans (s t u : TwoPhaseSet X) (h1 : s.le t = true)
    (h2 : t.le u = true) : s.le u = true := by
  simp only [le, decide_eq_true_eq] at h1 h2 ⊢
  exact ⟨h1.1.trans h2.1, h1.2.trans h2.2⟩

theorem tps_le_antisymm (s t : TwoPhaseSet X) (h1 : s.le t = true)
    (h2 : t.le s = true) : s.payload = t.payload := by
  simp only [le, decide_eq_true_eq] at h1 h2
  unfold payload
  simp only [Prod.mk.injEq]
  exact ⟨Finset.Subset.antisymm h1.1 h2.1, Finset.Subset.antisymm h1.2 h2.2⟩

theorem tps_le_iff_merge (s t : TwoPhaseSet X) :
    s.le t = true ↔ (s.merge t).payload = t.payload := by
  unfold merge payload
  simp only [le, decide_eq_true_eq, Prod.mk.injEq, Finset.union_eq_right]

theorem tps_add_mono (s : TwoPhaseSet X) (u : X) : s.le (s.add u) = true := by
  simp only [le, add, decide_eq_true_eq]
  exact ⟨Finset.subset_insert u s.added, Finset.Subset.refl _⟩

theorem del_some_of_query (s : TwoPhaseSet X) (u : X)
    (h : s.query u = true) :
    s.del u = some ⟨s.added, insert u s.removed⟩ := by
  unfold del
  rw [if_pos h]

theorem tps_del_mono (s : TwoPhaseSet X) (u : X) :
    s.le ⟨s.added, insert u s.removed⟩ = true := by
  simp only [le, decide_eq_true_eq]
  exact ⟨Finset.Subset.refl _, Finset.subset_insert u s.removed⟩

theorem del_none_iff (s : TwoPhaseSet X) (u : X) :
    s.del u = none ↔ ¬(u ∈ s.added ∧ u ∉ s.removed) := by
  unfold del
  by_cases h : s.query u = true
  · rw [if_pos h]
    simp only [query, decide_eq_true_eq] at h
    simp [h]
  · rw [if_neg h]
    simp only [query, decide_eq_true_eq] at h
    simp [h]

theorem query_false_of_removed (s : TwoPhaseSet X) (e : X)
    (he : e ∈ s.removed) : s.query e = false := by
  simp [query, he]

theorem removed_mono_apply (s t : TwoPhaseSet X) (e : X) (op : Op X)
    (he : e ∈ s.removed) (h : s.apply op = some t) : e ∈ t.removed := by
  cases op with
  | grow x =>
    simp only [apply, Option.some_inj] at h
    subst h
    exact he
  | shrink x =>
    simp only [apply] at h
    unfold del at h
    split at h
    · simp only [Option.some_inj] at h
      subst h
      exact Finset.mem_insert_of_mem he
    · exact absurd h (by simp)
  | join u =>
    simp only [apply, Option.some_inj] at h
    subst h
    exact Finset.mem_union_left _ he

theorem removed_mono_run (s s' : TwoPhaseSet X) (e : X) (ops : List (Op X))
    (he : e ∈ s.removed) (h : s.run ops = some s') : e ∈ s'.removed := by
  induction ops generalizing s with
  | nil =>
    unfold run at h
    simp only [Option.some_inj] at h
    subst h
    exact he
  | cons op ops ih =>
    unfold run at h
    cases ha : s.apply op with
    | none => rw [ha] at h; exact absurd h (by simp)
    | some t =>
      rw [ha] at h
      simp only [Option.some_bind] at h
      exact ih t (removed_mono_apply s t e op he ha) h

end TwoPhaseSet

/-! ## Claim theorems -/

/-- Claim C8: from `PNCounter::new((0, [0,0], [0,0]))`, the sequence
`add, del, add, add` yields positive `[3,0]`, negative `[1,0]`, and
`query` returns `2`. -/
theorem pnCounter_scenario :
    ((((PNCounter.new (0, [0, 0], [0, 0])).bind PNCounter.add).bind
        PNCounter.del).bind PNCounter.add).bind PNCounter.add =
      some ⟨0, [3, 0], [1, 0]⟩ ∧
    PNCounter.payload ⟨0, [3, 0], [1, 0]⟩ = (0, [3, 0], [1, 0]) ∧
    PNCounter.query ⟨0, [3, 0], [1, 0]⟩ = some 2 := by
  decide

/-- Claim C10: `GCounter::new` performs no validation — for any instance
whose id is out of range it reconstructs that instance unchanged from its
payload, and `add` then fails with the out-of-bounds index access, i.e.
`add` succeeds only under `id < counts.len()`. -/
theorem gCounter_new_unvalidated (g : GCounter) (h : g.counts.length ≤ g.id) :
    GCounter.new g.payload = g ∧ g.add = none := by
  constructor
  · cases g
    rfl
  · unfold GCounter.add
    rw [dif_neg (by omega)]

/-- Closed instantiation of `gCounter_new_unvalidated` at id 1, counts [0]. -/
theorem gCounter_new_unvalidated_witness :
    (⟨1, [0]⟩ : GCounter).counts.length ≤ (⟨1, [0]⟩ : GCounter).id ∧
    (GCounter.new (GCounter.payload ⟨1, [0]⟩) = ⟨1, [0]⟩ ∧
      (⟨1, [0]⟩ : GCounter).add = none) :=
  ⟨by decide, gCounter_new_unvalidated ⟨1, [0]⟩ (by decide)⟩

/-- Claim C2 counterexample: `GCounter::new((1, [0]))` has replica id 1 out
of range for its length-1 count vector, yet it returns an instance (whose
payload round-trips) instead of signalling a contract violation. -/
theorem new_validation_counterexample :
    GCounter.new (1, [0]) = ⟨1, [0]⟩ ∧
    (GCounter.new (1, [0])).payload = (1, [0]) := by
  decide

/-- Claim C2 (amended): only `PNCounter::new` validates the structural
invariants (vector length agreement and id in range), returning the
instance exactly when they hold and panicking otherwise; `GCounter::new`
performs no validation and always returns an instance, deferring the
failure of an out-of-range id to the first `add`. -/
theorem new_validation_amended :
    (∀ p : Nat × List Nat × List Nat,
      (PNCounter.new p = some ⟨p.1, p.2.1, p.2.2⟩ ↔
        (⟨p.1, p.2.1, p.2.2⟩ : PNCounter).consistent)) ∧
    (∀ p : Nat × List Nat × List Nat,
      ¬(⟨p.1, p.2.1, p.2.2⟩ : PNCounter).consistent → PNCounter.new p = none) ∧
    (∀ p : Nat × List Nat, GCounter.new p = ⟨p.1, p.2⟩) ∧
    (∀ g : GCounter, g.counts.length ≤ g.id → g.add = none) := by
  refine ⟨?_, ?_, ?_, ?_⟩
  · intro p
    constructor
    · intro h
      unfold PNCounter.new at h
      split at h
      · assumption
      · exact absurd h (by simp)
    · intro h
      unfold PNCounter.new
      rw [if_pos h]
  · intro p h
    unfold PNCounter.new
    rw [if_neg h]
  · intro p
    rfl
  · intro g h
    unfold GCounter.add
    rw [dif_neg (by omega)]

/-- Closed instantiation of `new_validation_amended`: `PNCounter::new` with
an out-of-range id panics, `GCounter::new` with an out-of-range id does
not, and the deferred failure hits `add`. -/
theorem new_validation_amended_witness :
    (¬(⟨17, [0], [0]⟩ : PNCounter).consistent ∧
      PNCounter.new (17, [0], [0]) = none) ∧
    ((⟨1, [0]⟩ : GCounter).counts.length ≤ (⟨1, [0]⟩ : GCounter).id ∧
      (⟨1, [0]⟩ : GCounter).add = none) ∧
    PNCounter.new (0, [0, 0], [0, 0]) = some ⟨0, [0, 0], [0, 0]⟩ :=
  ⟨⟨by decide, new_validation_amended.2.1 (17, [0], [0]) (by decide)⟩,
   ⟨by decide, new_validation_amended.2.2.2 ⟨1, [0]⟩ (by decide)⟩,
   (new_validation_amended.1 (0, [0, 0], [0, 0])).2 (by decide)⟩

/-- Claim C9: `PNCounter::query` computes `sum(positive) - sum(negative)` in
u64 arithmetic and is partial: whenever it returns a value the negative sum
is at most the positive sum, yet `new` accepts `(0, [0,0], [1,0])`, on which
`query` underflows and fails, and `del` (which is unguarded) still succeeds
there, pushing the state further from totality. -/
theorem pnCounter_query_underflow (x : PNCounter) (v : Nat)
    (h : x.query = some v) :
    x.negative.sum ≤ x.positive.sum ∧
    PNCounter.new (0, [0, 0], [1, 0]) = some ⟨0, [0, 0], [1, 0]⟩ ∧
    PNCounter.query ⟨0, [0, 0], [1, 0]⟩ = none ∧
    PNCounter.del ⟨0, [0, 0], [1, 0]⟩ = some ⟨0, [0, 0], [2, 0]⟩ := by
  refine ⟨?_, by decide, by decide, by decide⟩
  unfold PNCounter.query at h
  cases hp : checkedSum x.positive with
  | none => rw [hp] at h; exact absurd h (by simp)
  | some p =>
    cases hn : checkedSum x.negative with
    | none => rw [hp, hn] at h; exact absurd h (by simp)
    | some n =>
      rw [hp, hn] at h
      simp only [Option.some_bind] at h
      split at h
      · rename_i hle
        rw [← checkedSum_eq_sum _ _ hp, ← checkedSum_eq_sum _ _ hn]
        exact hle
      · exact absurd h (by simp)

/-- Closed instantiation of `pnCounter_query_underflow` at a state whose
query succeeds. -/
theorem pnCounter_query_underflow_witness :
    PNCounter.query ⟨0, [1], [0]⟩ = some 1 ∧
    (((⟨0, [1], [0]⟩ : PNCounter).negative.sum ≤
        (⟨0, [1], [0]⟩ : PNCounter).positive.sum) ∧
      PNCounter.new (0, [0, 0], [1, 0]) = some ⟨0, [0, 0], [1, 0]⟩ ∧
      PNCounter.query ⟨0, [0, 0], [1, 0]⟩ = none ∧
      PNCounter.del ⟨0, [0, 0], [1, 0]⟩ = some ⟨0, [0, 0], [2, 0]⟩) :=
  ⟨by decide, pnCounter_query_underflow ⟨0, [1], [0]⟩ 1 (by decide)⟩

/-- Claim C7: `TwoPhaseSet::del(x)` panics exactly when `x` is not a live
member (not in `added`, or already in `removed`); on a live member it
succeeds and inserts `x` into `removed`. -/
theorem twoPhaseSet_del_guard {X : Type} [DecidableEq X]
    (s : TwoPhaseSet X) (x : X) :
    (s.del x = none ↔ ¬(x ∈ s.added ∧ x ∉ s.removed)) ∧
    (s.query x = true → s.del x = some ⟨s.added, insert x s.removed⟩) :=
  ⟨TwoPhaseSet.del_none_iff s x, TwoPhaseSet.del_some_of_query s x⟩

/-- Closed instantiation of `twoPhaseSet_del_guard`: deleting the live
member 1 succeeds; deleting the never-added 9 fails. -/
theorem twoPhaseSet_del_guard_witness :
    (TwoPhaseSet.query (⟨{1}, ∅⟩ : TwoPhaseSet Nat) 1 = true ∧
      TwoPhaseSet.del (⟨{1}, ∅⟩ : TwoPhaseSet Nat) 1 =
        some ⟨{1}, insert 1 ∅⟩) ∧
    (TwoPhaseSet.del (⟨{1}, ∅⟩ : TwoPhaseSet Nat) 9 = none ↔
      ¬(9 ∈ ({1} : Finset Nat) ∧ 9 ∉ (∅ : Finset Nat))) :=
  ⟨⟨by decide, (twoPhaseSet_del_guard ⟨{1}, ∅⟩ 1).2 (by decide)⟩,
   (twoPhaseSet_del_guard ⟨{1}, ∅⟩ 9).1⟩

/-- Claim C6: the monotonic-tombstone invariant — if `e` is in the removed
set, `query(e)` is false, and after any panic-free sequence of add, del,
and merge operations `e` is still removed and `query(e)` is still false. -/
theorem twoPhaseSet_tombstone {X : Type} [DecidableEq X]
    (s s' : TwoPhaseSet X) (e : X) (ops : List (TwoPhaseSet.Op X))
    (he : e ∈ s.removed) (hrun : s.run ops = some s') :
    s.query e = false ∧ e ∈ s'.removed ∧ s'.query e = false :=
  have hr := TwoPhaseSet.removed_mono_run s s' e ops he hrun
  ⟨TwoPhaseSet.query_false_of_removed s e he, hr,
    TwoPhaseSet.query_false_of_removed s' e hr⟩

/-- Closed instantiation of `twoPhaseSet_tombstone`: element 2 is removed,
then the set sees an add of 2 itself, a del of 1 and a merge, and 2 stays
removed with `query 2 = false`. -/
theorem twoPhaseSet_tombstone_witness :
    2 ∈ (⟨{1, 2}, {2}⟩ : TwoPhaseSet Nat).removed ∧
    TwoPhaseSet.run (⟨{1, 2}, {2}⟩ : TwoPhaseSet Nat)
      [TwoPhaseSet.Op.grow 2, TwoPhaseSet.Op.shrink 1,
        TwoPhaseSet.Op.join ⟨{5}, {6}⟩] = some ⟨{1, 2, 5}, {1, 2, 6}⟩ ∧
    (TwoPhaseSet.query (⟨{1, 2}, {2}⟩ : TwoPhaseSet Nat) 2 = false ∧
      2 ∈ (⟨{1, 2, 5}, {1, 2, 6}⟩ : TwoPhaseSet Nat).removed ∧
      TwoPhaseSet.query (⟨{1, 2, 5}, {1, 2, 6}⟩ : TwoPhaseSet Nat) 2 = false) :=
  ⟨by decide, by decide,
    twoPhaseSet_tombstone ⟨{1, 2}, {2}⟩ ⟨{1, 2, 5}, {1, 2, 6}⟩ 2
      [TwoPhaseSet.Op.grow 2, TwoPhaseSet.Op.shrink 1,
        TwoPhaseSet.Op.join ⟨{5}, {6}⟩] (by decide) (by decide)⟩

/-- Claim C5: every update operation is monotonic under the stated
preconditions — `le(x, add(x,u))` for all six types (for LWWRegister under
the stored-timestamp-not-in-the-future precondition, for the counters
whenever the operation succeeds on a valid instance), and `le(x, del(x,u))`
for the two Shrink types (with `u` a live member for TwoPhaseSet). -/
theorem update_monotone :
    (∀ x : OneWayBoolean, x.le x.add = true) ∧
    (∀ x x' : GCounter, x.add = some x' → x.le x' = some true) ∧
    (∀ (X : Type) [DecidableEq X] (s : GSet X) (u : X),
      s.le (s.add u) = true) ∧
    (∀ (X : Type) (r : LWWRegister X) (u : X) (now : Nat),
      r.timestamp ≤ now →
      r.add u now = some ⟨u, now⟩ ∧ r.le ⟨u, now⟩ = true) ∧
    (∀ x x' : PNCounter, x.consistent → x.add = some x' →
      x.le x' = some true) ∧
    (∀ (X : Type) [DecidableEq X] (s : TwoPhaseSet X) (u : X),
      s.le (s.add u) = true) ∧
    (∀ x x' : PNCounter, x.consistent → x.del = some x' →
      x.le x' = some true) ∧
    (∀ (X : Type) [DecidableEq X] (s : TwoPhaseSet X) (u : X),
      s.query u = true →
      s.del u = some ⟨s.added, insert u s.removed⟩ ∧
        s.le ⟨s.added, insert u s.removed⟩ = true) := by
  refine ⟨OneWayBoolean.owb_add_mono, GCounter.gc_add_mono, ?_, ?_,
    PNCounter.pn_add_mono, ?_, PNCounter.pn_del_mono, ?_⟩
  · intro X inst s u
    exact GSet.gset_add_mono s u
  · intro X r u now h
    exact LWWRegister.lww_add_mono r u now h
  · intro X inst s u
    exact TwoPhaseSet.tps_add_mono s u
  · intro X inst s u h
    exact ⟨TwoPhaseSet.del_some_of_query s u h, TwoPhaseSet.tps_del_mono s u⟩

/-- Closed instantiation of `update_monotone` at concrete inputs for each
hypothesis-bearing conjunct. -/
theorem update_monotone_witness :
    ((⟨0, [0, 5]⟩ : GCounter).add = some ⟨0, [1, 5]⟩ ∧
      (⟨0, [0, 5]⟩ : GCounter).le ⟨0, [1, 5]⟩ = some true) ∧
    ((⟨3, 1⟩ : LWWRegister Nat).timestamp ≤ 4 ∧
      ((⟨3, 1⟩ : LWWRegister Nat).add 9 4 = some ⟨9, 4⟩ ∧
        (⟨3, 1⟩ : LWWRegister Nat).le ⟨9, 4⟩ = true)) ∧
    ((⟨0, [2, 0], [1, 1]⟩ : PNCounter).consistent ∧
      (⟨0, [2, 0], [1, 1]⟩ : PNCounter).add = some ⟨0, [3, 0], [1, 1]⟩ ∧
      (⟨0, [2, 0], [1, 1]⟩ : PNCounter).le ⟨0, [3, 0], [1, 1]⟩ = some true) ∧
    ((⟨0, [2, 0], [1, 1]⟩ : PNCounter).del = some ⟨0, [2, 0], [2, 1]⟩ ∧
      (⟨0, [2, 0], [1, 1]⟩ : PNCounter).le ⟨0, [2, 0], [2, 1]⟩ = some true) ∧
    (TwoPhaseSet.query (⟨{4}, ∅⟩ : TwoPhaseSet Nat) 4 = true ∧
      (TwoPhaseSet.del (⟨{4}, ∅⟩ : TwoPhaseSet Nat) 4 =
        some ⟨{4}, insert 4 ∅⟩ ∧
        TwoPhaseSet.le (⟨{4}, ∅⟩ : TwoPhaseSet Nat) ⟨{4}, insert 4 ∅⟩ = true)) :=
  ⟨⟨by decide, update_monotone.2.1 ⟨0, [0, 5]⟩ ⟨0, [1, 5]⟩ (by decide)⟩,
   ⟨by decide, update_monotone.2.2.2.1 Nat ⟨3, 1⟩ 9 4 (by decide)⟩,
   ⟨by decide, by decide,
     update_monotone.2.2.2.2.1 ⟨0, [2, 0], [1, 1]⟩ ⟨0, [3, 0], [1, 1]⟩
       (by decide) (by decide)⟩,
   ⟨by decide,
     update_monotone.2.2.2.2.2.2.1 ⟨0, [2, 0], [1, 1]⟩ ⟨0, [2, 0], [2, 1]⟩
       (by decide) (by decide)⟩,
   ⟨by decide,
     update_monotone.2.2.2.2.2.2.2 Nat ⟨{4}, ∅⟩ 4 (by decide)⟩⟩

/-- Claim C1 counterexample: two LWWRegisters with equal timestamps and
distinct values — `merge` keeps `self` on the tie, so the two merge orders
produce different payloads, refuting commutativity "including pairs whose
timestamps are equal". -/
theorem merge_commutative_counterexample :
    ¬(((⟨0, 0⟩ : LWWRegister Nat).merge ⟨1, 0⟩).payload =
      ((⟨1, 0⟩ : LWWRegister Nat).merge ⟨0, 0⟩).payload) := by
  decide

/-- Claim C1 (amended): payload-level merge commutativity holds for
OneWayBoolean, GSet, TwoPhaseSet, and (on equal-length count vectors)
GCounter and PNCounter; for LWWRegister it holds exactly on pairs whose
timestamps differ or whose values agree — the tie-with-distinct-values
case fails because merge keeps `self`. -/
theorem merge_commutative_amended :
    (∀ x y : OneWayBoolean, (x.merge y).payload = (y.merge x).payload) ∧
    (∀ x y : GCounter, x.counts.length = y.counts.length →
      (x.merge y).map GCounter.payload = (y.merge x).map GCounter.payload) ∧
    (∀ (X : Type) [DecidableEq X] (s t : GSet X),
      (s.merge t).payload = (t.merge s).payload) ∧
    (∀ (X : Type) (r s : LWWRegister X),
      r.timestamp ≠ s.timestamp ∨ r.value = s.value →
      (r.merge s).payload = (s.merge r).payload) ∧
    (∀ x y : PNCounter, PNCounter.compatible x y →
      (x.merge y).map PNCounter.payload = (y.merge x).map PNCounter.payload) ∧
    (∀ (X : Type) [DecidableEq X] (s t : TwoPhaseSet X),
      (s.merge t).payload = (t.merge s).payload) := by
  refine ⟨OneWayBoolean.owb_merge_comm, GCounter.gc_merge_comm, ?_, ?_,
    PNCounter.pn_merge_comm, ?_⟩
  · intro X inst s t
    exact GSet.gset_merge_comm s t
  · intro X r s h
    exact LWWRegister.lww_merge_comm r s h
  · intro X inst s t
    exact TwoPhaseSet.tps_merge_comm s t

/-- Closed instantiation of `merge_commutative_amended` at concrete inputs
for each hypothesis-bearing conjunct. -/
theorem merge_commutative_amended_witness :
    ((⟨0, [1, 2]⟩ : GCounter).counts.length =
        (⟨1, [2, 0]⟩ : GCounter).counts.length ∧
      ((⟨0, [1, 2]⟩ : GCounter).merge ⟨1, [2, 0]⟩).map GCounter.payload =
        ((⟨1, [2, 0]⟩ : GCounter).merge ⟨0, [1, 2]⟩).map GCounter.payload) ∧
    (((⟨5, 1⟩ : LWWRegister Nat).timestamp ≠
        (⟨7, 2⟩ : LWWRegister Nat).timestamp ∨
        (⟨5, 1⟩ : LWWRegister Nat).value = (⟨7, 2⟩ : LWWRegister Nat).value) ∧
      ((⟨5, 1⟩ : LWWRegister Nat).merge ⟨7, 2⟩).payload =
        ((⟨7, 2⟩ : LWWRegister Nat).merge ⟨5, 1⟩).payload) ∧
    (PNCounter.compatible ⟨0, [1, 0], [0, 0]⟩ ⟨1, [0, 2], [1, 1]⟩ ∧
      ((⟨0, [1, 0], [0, 0]⟩ : PNCounter).merge
          ⟨1, [0, 2], [1, 1]⟩).map PNCounter.payload =
        ((⟨1, [0, 2], [1, 1]⟩ : PNCounter).merge
          ⟨0, [1, 0], [0, 0]⟩).map PNCounter.payload) :=
  ⟨⟨by decide, merge_commutative_amended.2.1 ⟨0, [1, 2]⟩ ⟨1, [2, 0]⟩ (by decide)⟩,
   ⟨by decide,
     merge_commutative_amended.2.2.2.1 Nat ⟨5, 1⟩ ⟨7, 2⟩ (by decide)⟩,
   ⟨by decide,
     merge_commutative_amended.2.2.2.2.1 ⟨0, [1, 0], [0, 0]⟩
       ⟨1, [0, 2], [1, 1]⟩ (by decide)⟩⟩

/-- Claim C4: payload-level merge associativity holds for every leaf type —
for LWWRegister even on triples with equal timestamps (left-biased
selection by timestamp is associative), and for GCounter/PNCounter
including the merged replica-id component (`min` is associative). -/
theorem merge_associative :
    (∀ x y z : OneWayBoolean,
      (x.merge (y.merge z)).payload = ((x.merge y).merge z).payload) ∧
    (∀ x y z : GCounter, x.counts.length = y.counts.length →
      y.counts.length = z.counts.length →
      ((y.merge z).bind fun w => x.merge w).map GCounter.payload =
        ((x.merge y).bind fun w => w.merge z).map GCounter.payload) ∧
    (∀ (X : Type) [DecidableEq X] (s t u : GSet X),
      (s.merge (t.merge u)).payload = ((s.merge t).merge u).payload) ∧
    (∀ (X : Type) (r s t : LWWRegister X),
      (r.merge (s.merge t)).payload = ((r.merge s).merge t).payload) ∧
    (∀ x y z : PNCounter, PNCounter.compatible x y →
      PNCounter.compatible y z →
      ((y.merge z).bind fun w => x.merge w).map PNCounter.payload =
        ((x.merge y).bind fun w => w.merge z).map PNCounter.payload) ∧
    (∀ (X : Type) [DecidableEq X] (s t u : TwoPhaseSet X),
      (s.merge (t.merge u)).payload = ((s.merge t).merge u).payload) := by
  refine ⟨OneWayBoolean.owb_merge_assoc, GCounter.gc_merge_assoc, ?_, ?_,
    PNCounter.pn_merge_assoc, ?_⟩
  · intro X inst s t u
    exact GSet.gset_merge_assoc s t u
  · intro X r s t
    rw [LWWRegister.lww_merge_assoc]
  · intro X inst s t u
    exact TwoPhaseSet.tps_merge_assoc s t u

/-- Closed instantiation of `merge_associative` at concrete inputs for the
hypothesis-bearing conjuncts, including an all-equal-timestamp LWWRegister
triple exercised through the total conjunct. -/
theorem merge_associative_witness :
    ((⟨0, [1, 5]⟩ : GCounter).counts.length =
        (⟨1, [4, 2]⟩ : GCounter).counts.length ∧
      (⟨1, [4, 2]⟩ : GCounter).counts.length =
        (⟨2, [3, 3]⟩ : GCounter).counts.length ∧
      (((⟨1, [4, 2]⟩ : GCounter).merge ⟨2, [3, 3]⟩).bind fun w =>
          (⟨0, [1, 5]⟩ : GCounter).merge w).map GCounter.payload =
        (((⟨0, [1, 5]⟩ : GCounter).merge ⟨1, [4, 2]⟩).bind fun w =>
          w.merge ⟨2, [3, 3]⟩).map GCounter.payload) ∧
    (PNCounter.compatible ⟨0, [1, 0], [0, 0]⟩ ⟨1, [2, 0], [1, 0]⟩ ∧
      PNCounter.compatible ⟨1, [2, 0], [1, 0]⟩ ⟨0, [0, 1], [3, 0]⟩ ∧
      (((⟨1, [2, 0], [1, 0]⟩ : PNCounter).merge ⟨0, [0, 1], [3, 0]⟩).bind
          fun w => (⟨0, [1, 0], [0, 0]⟩ : PNCounter).merge w).map
            PNCounter.payload =
        (((⟨0, [1, 0], [0, 0]⟩ : PNCounter).merge ⟨1, [2, 0], [1, 0]⟩).bind
          fun w => w.merge ⟨0, [0, 1], [3, 0]⟩).map PNCounter.payload) ∧
    (((⟨0, 3⟩ : LWWRegister Nat).merge
        ((⟨1, 3⟩ : LWWRegister Nat).merge ⟨2, 3⟩)).payload =
      (((⟨0, 3⟩ : LWWRegister Nat).merge ⟨1, 3⟩).merge ⟨2, 3⟩).payload) :=
  ⟨⟨by decide, by decide,
     merge_associative.2.1 ⟨0, [1, 5]⟩ ⟨1, [4, 2]⟩ ⟨2, [3, 3]⟩
       (by decide) (by decide)⟩,
   ⟨by decide, by decide,
     merge_associative.2.2.2.2.1 ⟨0, [1, 0], [0, 0]⟩ ⟨1, [2, 0], [1, 0]⟩
       ⟨0, [0, 1], [3, 0]⟩ (by decide) (by decide)⟩,
   merge_associative.2.2.2.1 Nat ⟨0, 3⟩ ⟨1, 3⟩ ⟨2, 3⟩⟩

/-- Claim C3 counterexample: two GCounters with equal count vectors but
different replica ids satisfy `le` in both directions, yet their payloads
(which include the id) differ — `le` is not antisymmetric up to payload
equality, and `merge` of the pair changes the id to the minimum, so
`payload(merge(x, y)) = payload(y)` also fails although `le(x, y)` holds. -/
theorem partial_order_counterexample :
    GCounter.le ⟨0, [0]⟩ ⟨1, [0]⟩ = some true ∧
    GCounter.le ⟨1, [0]⟩ ⟨0, [0]⟩ = some true ∧
    GCounter.payload ⟨0, [0]⟩ ≠ GCounter.payload ⟨1, [0]⟩ ∧
    ¬(((⟨0, [0]⟩ : GCounter).merge ⟨1, [0]⟩).map GCounter.payload =
      some (GCounter.payload ⟨1, [0]⟩)) := by
  decide

/-- Claim C3 (amended): on compatible shapes `le` is reflexive and
transitive for every leaf type; antisymmetry up to payload equality and
the equivalence `le(x,y) ↔ payload(merge(x,y)) = payload(y)` hold for
OneWayBoolean, GSet and TwoPhaseSet; for GCounter and PNCounter both hold
with the replica id excluded (on the count vectors only, since merge
rewrites the id to the minimum); for LWWRegister mutual `le` forces only
equal timestamps, the merge direction of the equivalence holds when the
timestamps differ or the payloads agree, and the converse direction holds
unconditionally. -/
theorem partial_order_amended :
    (∀ x : OneWayBoolean, x.le x = true) ∧
    (∀ x : GCounter, x.le x = some true) ∧
    (∀ (X : Type) [DecidableEq X] (s : GSet X), s.le s = true) ∧
    (∀ (X : Type) (r : LWWRegister X), r.le r = true) ∧
    (∀ x : PNCounter, x.consistent → x.le x = some true) ∧
    (∀ (X : Type) [DecidableEq X] (s : TwoPhaseSet X), s.le s = true) ∧
    (∀ x y z : OneWayBoolean,
      x.le y = true → y.le z = true → x.le z = true) ∧
    (∀ x y z : GCounter, x.counts.length = y.counts.length →
      y.counts.length = z.counts.length →
      x.le y = some true → y.le z = some true → x.le z = some true) ∧
    (∀ (X : Type) [DecidableEq X] (s t u : GSet X),
      s.le t = true → t.le u = true → s.le u = true) ∧
    (∀ (X : Type) (r s t : LWWRegister X),
      r.le s = true → s.le t = true → r.le t = true) ∧
    (∀ x y z : PNCounter, PNCounter.compatible x y →
      PNCounter.compatible y z →
      x.le y = some true → y.le z = some true → x.le z = some true) ∧
    (∀ (X : Type) [DecidableEq X] (s t u : TwoPhaseSet X),
      s.le t = true → t.le u = true → s.le u = true) ∧
    (∀ x y : OneWayBoolean,
      x.le y = true → y.le x = true → x.payload = y.payload) ∧
    (∀ x y : GCounter, x.counts.length = y.counts.length →
      x.le y = some true → y.le x = some true → x.counts = y.counts) ∧
    (∀ (X : Type) [DecidableEq X] (s t : GSet X),
      s.le t = true → t.le s = true → s.payload = t.payload) ∧
    (∀ (X : Type) (r s : LWWRegister X),
      r.le s = true → s.le r = true → r.timestamp = s.timestamp) ∧
    (∀ x y : PNCounter, PNCounter.compatible x y →
      x.le y = some true → y.le x = some true →
      x.positive = y.positive ∧ x.negative = y.negative) ∧
    (∀ (X : Type) [DecidableEq X] (s t : TwoPhaseSet X),
      s.le t = true → t.le s = true → s.payload = t.payload) ∧
    (∀ x y : OneWayBoolean,
      x.le y = true ↔ (x.merge y).payload = y.payload) ∧
    (∀ x y : GCounter, x.counts.length = y.counts.length →
      (x.le y = some true ↔ (x.merge y).map GCounter.counts = some y.counts)) ∧
    (∀ (X : Type) [DecidableEq X] (s t : GSet X),
      s.le t = true ↔ (s.merge t).payload = t.payload) ∧
    (∀ (X : Type) (r s : LWWRegister X),
      ((r.merge s).payload = s.payload → r.le s = true) ∧
      (r.timestamp ≠ s.timestamp ∨ r.payload = s.payload →
        r.le s = true → (r.merge s).payload = s.payload)) ∧
    (∀ x y : PNCounter, PNCounter.compatible x y →
      (x.le y = some true ↔
        (x.merge y).map (fun w => (w.positive, w.negative)) =
          some (y.positive, y.negative))) ∧
    (∀ (X : Type) [DecidableEq X] (s t : TwoPhaseSet X),
      s.le t = true ↔ (s.merge t).payload = t.payload) := by
  refine ⟨OneWayBoolean.owb_le_refl, GCounter.gc_le_refl, ?_, ?_,
    PNCounter.pn_le_refl, ?_,
    OneWayBoolean.owb_le_trans, GCounter.gc_le_trans, ?_, ?_,
    PNCounter.pn_le_trans, ?_,
    OneWayBoolean.owb_le_antisymm, GCounter.gc_le_antisymm_counts, ?_, ?_,
    PNCounter.pn_le_antisymm_counts, ?_,
    OneWayBoolean.owb_le_iff_merge, GCounter.gc_le_iff_merge_counts, ?_, ?_,
    PNCounter.pn_le_iff_merge_counts, ?_⟩
  · intro X inst s
    exact GSet.gset_le_refl s
  · intro X r
    exact LWWRegister.lww_le_refl r
  · intro X inst s
    exact TwoPhaseSet.tps_le_refl s
  · intro X inst s t u
    exact GSet.gset_le_trans s t u
  · intro X r s t
    exact LWWRegister.lww_le_trans r s t
  · intro X inst s t u
    exact TwoPhaseSet.tps_le_trans s t u
  · intro X inst s t
    exact GSet.gset_le_antisymm s t
  · intro X r s
    exact LWWRegister.le_antisymm_timestamp r s
  · intro X inst s t
    exact TwoPhaseSet.tps_le_antisymm s t
  · intro X inst s t
    exact GSet.gset_le_iff_merge s t
  · intro X r s
    exact ⟨LWWRegister.merge_payload_imp_le r s,
      fun hside hle => LWWRegister.le_imp_merge_payload r s hside hle⟩
  · intro X inst s t
    exact TwoPhaseSet.tps_le_iff_merge s t

/-- Closed instantiation of `partial_order_amended` at concrete inputs for
representative hypothesis-bearing conjuncts. -/
theorem partial_order_amended_witness :
    ((⟨0, [1, 2], [0, 0]⟩ : PNCounter).consistent ∧
      (⟨0, [1, 2], [0, 0]⟩ : PNCounter).le ⟨0, [1, 2], [0, 0]⟩ = some true) ∧
    ((⟨0, [1, 0]⟩ : GCounter).counts.length =
        (⟨1, [1, 1]⟩ : GCounter).counts.length ∧
      (⟨1, [1, 1]⟩ : GCounter).counts.length =
        (⟨0, [2, 1]⟩ : GCounter).counts.length ∧
      (⟨0, [1, 0]⟩ : GCounter).le ⟨1, [1, 1]⟩ = some true ∧
      (⟨1, [1, 1]⟩ : GCounter).le ⟨0, [2, 1]⟩ = some true ∧
      (⟨0, [1, 0]⟩ : GCounter).le ⟨0, [2, 1]⟩ = some true) ∧
    ((⟨2, [3, 3]⟩ : GCounter).counts.length =
        (⟨5, [3, 3]⟩ : GCounter).counts.length ∧
      (⟨2, [3, 3]⟩ : GCounter).le ⟨5, [3, 3]⟩ = some true ∧
      (⟨5, [3, 3]⟩ : GCounter).le ⟨2, [3, 3]⟩ = some true ∧
      (⟨2, [3, 3]⟩ : GCounter).counts = (⟨5, [3, 3]⟩ : GCounter).counts) ∧
    ((⟨0, [1, 0]⟩ : GCounter).counts.length =
        (⟨1, [1, 1]⟩ : GCounter).counts.length ∧
      ((⟨0, [1, 0]⟩ : GCounter).le ⟨1, [1, 1]⟩ = some true ↔
        ((⟨0, [1, 0]⟩ : GCounter).merge ⟨1, [1, 1]⟩).map GCounter.counts =
          some (⟨1, [1, 1]⟩ : GCounter).counts)) ∧
    (((⟨4, 1⟩ : LWWRegister Nat).timestamp ≠
        (⟨6, 2⟩ : LWWRegister Nat).timestamp ∨
        (⟨4, 1⟩ : LWWRegister Nat).payload = (⟨6, 2⟩ : LWWRegister Nat).payload) ∧
      (⟨4, 1⟩ : LWWRegister Nat).le ⟨6, 2⟩ = true ∧
      ((⟨4, 1⟩ : LWWRegister Nat).merge ⟨6, 2⟩).payload =
        (⟨6, 2⟩ : LWWRegister Nat).payload) :=
  ⟨⟨by decide, partial_order_amended.2.2.2.2.1 ⟨0, [1, 2], [0, 0]⟩ (by decide)⟩,
   ⟨by decide, by decide, by decide, by decide,
     partial_order_amended.2.2.2.2.2.2.2.1 ⟨0, [1, 0]⟩ ⟨1, [1, 1]⟩ ⟨0, [2, 1]⟩
       (by decide) (by decide) (by decide) (by decide)⟩,
   ⟨by decide, by decide, by decide,
     partial_order_amended.2.2.2.2.2.2.2.2.2.2.2.2.2.1 ⟨2, [3, 3]⟩ ⟨5, [3, 3]⟩
       (by decide) (by decide) (by decide)⟩,
   ⟨by decide,
     partial_order_amended.2.2.2.2.2.2.2.2.2.2.2.2.2.2.2.2.2.2.2.1
       ⟨0, [1, 0]⟩ ⟨1, [1, 1]⟩ (by decide)⟩,
   ⟨by decide, by decide,
     (partial_order_amended.2.2.2.2.2.2.2.2.2.2.2.2.2.2.2.2.2.2.2.2.2.1
       Nat ⟨4, 1⟩ ⟨6, 2⟩).2 (by decide) (by decide)⟩⟩
